import Mathlib

/-!
Verification of the worktree-cleanup core of `velvee-ai/ai-workflow`
(`cmd/cleanup.go` and the GitRunner methods it calls), as a shallow
embedding in Lean 4.

External effects (git subprocess calls, the filesystem, user prompts)
are modelled as explicit oracle inputs: each oracle returns the value
the corresponding Go call would return, with `Except Unit _` standing
for Go's `(value, error)` pairs.  The definitions follow the Go source
line by line; theorems state and settle the spec's claims about them.
-/

namespace AiWorkflow

/-- Go's `filepath.Join(a, b)` for a cleaned, non-empty `a` and a
relative component `b`: concatenation with a single separator. -/
def joinPath (a b : String) : String := a ++ "/" ++ b

/-- Go's `filepath.Base`: the last element of the path after trailing
slashes are removed; `"."` for the empty path, `"/"` for all-slash
paths.  Implemented over the character list so it evaluates by
structural recursion. -/
def baseName (p : String) : String :=
  if p = "" then "."
  else
    let t := (p.data.reverse.dropWhile (fun c => c = '/')).reverse
    if t = [] then "/"
    else ⟨(t.reverse.takeWhile (fun c => c ≠ '/')).reverse⟩

/-- Structure `WorktreeInfo` from `cmd/cleanup.go`: the status record the scanner
produces for one secondary worktree.  `lastModified` models Go's
`time.Time` as a tick count (zero value when `os.Stat` fails). -/
structure WorktreeInfo where
  repoName : String
  repoPath : String
  path : String
  branch : String
  isMerged : Bool
  isDeleted : Bool
  hasChanges : Bool
  reason : String
  lastModified : Nat
  sizeBytes : Int
  defaultBranch : String
  deriving Repr, DecidableEq

/-- Method `(*WorktreeInfo).IsStale` from `cmd/cleanup.go`:
`!w.HasChanges && (w.IsMerged || w.IsDeleted)`. -/
def WorktreeInfo.IsStale (w : WorktreeInfo) : Bool :=
  !w.hasChanges && (w.isMerged || w.isDeleted)

/-- Method `(*WorktreeInfo).StatusString` from `cmd/cleanup.go`. -/
def WorktreeInfo.StatusString (w : WorktreeInfo) : String :=
  if w.hasChanges then "[changes]"
  else if w.isMerged then "[merged]"
  else if w.isDeleted then "[deleted]"
  else "[active]"

/-- One entry of `runner.ListWorktrees` output: path and branch of an
enumerated worktree. -/
structure WorktreeListing where
  path : String
  branch : String
  deriving Repr, DecidableEq

/-- Oracle bundle for one `scanWorktrees` invocation: the outcomes the
git runner and the filesystem would deliver for each call the scanner
makes.  Per-worktree oracles are keyed by the arguments the Go code
passes (worktree path / branch names). -/
structure ScanEnv where
  /-- `runner.GetDefaultBranch(ctx, mainPath)` -/
  defaultBranchRes : Except Unit String
  /-- `runner.FetchPrune(ctx, mainPath)` (warning only) -/
  fetchRes : Except Unit Unit
  /-- `runner.ListWorktrees(ctx, mainPath)` -/
  listRes : Except Unit (List WorktreeListing)
  /-- `runner.GetGitStatus(ctx, wt.Path)`: porcelain status lines -/
  statusRes : String → Except Unit (List String)
  /-- `runner.IsBranchMerged(ctx, mainPath, wt.Branch, defaultBranch)` -/
  mergedRes : String → String → Except Unit Bool
  /-- `runner.RemoteBranchExists(ctx, wt.Path, wt.Branch)` -/
  remoteRes : String → String → Except Unit Bool
  /-- `os.Stat(filepath.Join(wt.Path, ".git")).ModTime()` -/
  modTime : String → Option Nat
  /-- `getDirSize(wt.Path)` -/
  dirSize : String → Except Unit Int

/-- The per-worktree body of the `scanWorktrees` loop
(`cmd/cleanup.go:530-577`): build the `WorktreeInfo` for one enumerated
worktree.  Status is checked first; the merge and remote probes run
only when the worktree is clean, and their errors leave the flags
unset (`if err == nil && ...`). -/
def processWorktree (env : ScanEnv) (repoPath repoName defaultBranch : String)
    (wt : WorktreeListing) : WorktreeInfo :=
  let lastModified := (env.modTime wt.path).getD 0
  let sizeBytes := match env.dirSize wt.path with
    | .ok s => s
    | .error _ => 0
  let base : WorktreeInfo :=
    { repoName := repoName, repoPath := repoPath, path := wt.path,
      branch := wt.branch, isMerged := false, isDeleted := false,
      hasChanges := false, reason := "", lastModified := lastModified,
      sizeBytes := sizeBytes, defaultBranch := defaultBranch }
  let afterStatus : WorktreeInfo :=
    match env.statusRes wt.path with
    | .error _ => { base with hasChanges := true, reason := "Error checking status" }
    | .ok status =>
        if status.length > 0 then
          { base with hasChanges := true, reason := "Has uncommitted changes" }
        else base
  if afterStatus.hasChanges then afterStatus
  else
    let afterMerged : WorktreeInfo :=
      match env.mergedRes wt.branch defaultBranch with
      | .ok true =>
          { afterStatus with isMerged := true, reason := "Merged to " ++ defaultBranch }
      | _ => afterStatus
    if afterMerged.isMerged then afterMerged
    else
      match env.remoteRes wt.path wt.branch with
      | .ok false =>
          { afterMerged with isDeleted := true, reason := "Remote branch deleted" }
      | _ => afterMerged

/-- Function `scanWorktrees` from `cmd/cleanup.go`: resolve the default branch
(falling back to `"main"` on error), list the worktrees (fatal for
this repository on error), skip the canonical `main` checkout, and
classify each remaining worktree. -/
def scanWorktrees (env : ScanEnv) (repoPath repoName : String) :
    Except String (List WorktreeInfo) :=
  let defaultBranch := match env.defaultBranchRes with
    | .ok b => b
    | .error _ => "main"
  match env.listRes with
  | .error _ => .error "failed to list worktrees"
  | .ok wts =>
      .ok (((wts.filter (fun wt => baseName wt.path ≠ "main")).map
        (fun wt => processWorktree env repoPath repoName defaultBranch wt)))

/-- The three ways `removeWorktreeSafely` can fail, one per `return`
of an error in `cmd/cleanup.go:584-604`. -/
inductive RemoveError where
  | statusCheckFailed
  | refusedUncommitted
  | removeFailed
  deriving Repr, DecidableEq

/-- Function `removeWorktreeSafely` from `cmd/cleanup.go`: re-check the git
status of the worktree, refuse when it reports uncommitted changes,
and only then invoke `runner.RemoveWorktree`.  The returned `Bool`
records whether the underlying remove command was invoked at all. -/
def removeWorktreeSafely (statusRes : Except Unit (List String))
    (removeRes : Except Unit Unit) : Except RemoveError Unit × Bool :=
  match statusRes with
  | .error _ => (.error .statusCheckFailed, false)
  | .ok status =>
      if status.length > 0 then (.error .refusedUncommitted, false)
      else
        match removeRes with
        | .error _ => (.error .removeFailed, true)
        | .ok _ => (.ok (), true)

/-- One `os.ReadDir` entry: name and whether it is a directory. -/
structure DirEntry where
  name : String
  isDir : Bool
  deriving Repr, DecidableEq

/-- Oracle bundle for `discoverRepos`: the configuration value and the
filesystem answers. -/
structure DiscoverEnv where
  /-- `config.GetString("default_git_folder")` (`""` when unset) -/
  configuredRoot : String
  /-- `os.UserHomeDir()` -/
  homeDirRes : Except Unit String
  /-- `os.ReadDir(gitFolder)`, keyed by the folder path -/
  readDirRes : String → Except Unit (List DirEntry)
  /-- whether `os.Stat(p)` succeeds, keyed by path -/
  statExists : String → Bool

/-- The `~/` expansion at the top of `discoverRepos`
(`cmd/cleanup.go:461-468`). -/
def expandHome (env : DiscoverEnv) (p : String) : Except Unit String :=
  if ("~/".data).isPrefixOf p.data then
    match env.homeDirRes with
    | .error _ => .error ()
    | .ok home => .ok (joinPath home ⟨p.data.drop 2⟩)
  else .ok p

/-- Function `discoverRepos` from `cmd/cleanup.go`: `none` models the `nil`
return after an error message (unconfigured root, home-dir failure, or
unreadable root); otherwise the accepted container paths, in directory
order.  An entry is accepted iff it is a directory and
`root/<name>/main/.git` stats successfully. -/
def discoverRepos (env : DiscoverEnv) : Option (List String) :=
  if env.configuredRoot = "" then none
  else
    match expandHome env env.configuredRoot with
    | .error _ => none
    | .ok gitFolder =>
        match env.readDirRes gitFolder with
        | .error _ => none
        | .ok entries =>
            some ((entries.filter (fun e =>
              e.isDir &&
                env.statExists
                  (joinPath (joinPath (joinPath gitFolder e.name) "main") ".git"))).map
              (fun e => joinPath gitFolder e.name))

/-- One message received on the `results` channel of the list/scan/run
orchestrators: a repository name together with its `scanWorktrees`
outcome.  A list of these models the channel in arrival
(completion) order. -/
structure RepoResult where
  repoName : String
  res : Except String (List WorktreeInfo)
  deriving Repr

/-- Whether a `repoResult` makes `runCleanupList` print a
`Repository:` header (`cmd/cleanup.go:166-177`): scanning succeeded
and at least one worktree record exists. -/
def listPrintsRepo (r : RepoResult) : Bool :=
  match r.res with
  | .error _ => false
  | .ok wts => wts.length > 0

/-- The order in which `runCleanupList` prints repository headers: it
consumes the results channel directly, so headers appear in arrival
order, restricted to results that print at all. -/
def listReportRepoOrder (arrivals : List RepoResult) : List String :=
  (arrivals.filter listPrintsRepo).map (fun r => r.repoName)

/-- The stale-collection loop of `runCleanupScan`
(`cmd/cleanup.go:264-276`): drop errored repositories, keep the
records satisfying `IsStale`, in arrival order. -/
def scanCollectStale (arrivals : List RepoResult) : List WorktreeInfo :=
  arrivals.foldl (fun acc r =>
    match r.res with
    | .error _ => acc
    | .ok wts => acc ++ wts.filter (fun wt => wt.IsStale)) []

/-- The stale-collection loop of `runCleanupRun`
(`cmd/cleanup.go:367-379`): textually the same loop as in
`runCleanupScan`, duplicated here because the Go source duplicates it. -/
def runCollectStale (arrivals : List RepoResult) : List WorktreeInfo :=
  arrivals.foldl (fun acc r =>
    match r.res with
    | .error _ => acc
    | .ok wts => acc ++ wts.filter (fun wt => wt.IsStale)) []

/-- Oracle bundle for the removal phase of `runCleanupRun`. -/
structure RunEnv where
  /-- the `--force` flag -/
  force : Bool
  /-- the interactive `y/N` answer for a given worktree path -/
  userAccepts : String → Bool
  /-- `runner.GetGitStatus(ctx, info.Path)` at removal time -/
  recheckStatus : String → Except Unit (List String)
  /-- `runner.RemoveWorktree(ctx, mainPath, info.Path)` -/
  removeRes : String → Except Unit Unit
  /-- `runner.PruneWorktrees(ctx, mainPath)`, keyed by `mainPath` -/
  pruneRes : String → Except Unit Unit

/-- Tally of the removal loop of `runCleanupRun`
(`cmd/cleanup.go:388-421`). -/
structure RunTally where
  removed : Nat
  skipped : Nat
  freed : Int
  deriving Repr, DecidableEq

/-- The removal loop of `runCleanupRun`: for each stale candidate,
decide (force or prompt), call `removeWorktreeSafely`, and count
removed/skipped and freed bytes. -/
def runRemovalLoop (env : RunEnv) (allStale : List WorktreeInfo) : RunTally :=
  allStale.foldl (fun t wt =>
    let shouldRemove := env.force || env.userAccepts wt.path
    if shouldRemove then
      match removeWorktreeSafely (env.recheckStatus wt.path) (env.removeRes wt.path) with
      | (.error _, _) => { t with skipped := t.skipped + 1 }
      | (.ok _, _) =>
          { t with removed := t.removed + 1, freed := t.freed + wt.sizeBytes }
    else { t with skipped := t.skipped + 1 })
    { removed := 0, skipped := 0, freed := 0 }

/-- The `processedRepos` deduplication of the prune phase
(`cmd/cleanup.go:436-446`): first occurrences of each repo path, in
order of appearance in `allStale`. -/
def dedupFirst : List String → List String → List String
  | [], _ => []
  | p :: rest, seen =>
      if p ∈ seen then dedupFirst rest seen
      else p :: dedupFirst rest (p :: seen)

/-- The repositories `runCleanupRun` prunes (`cmd/cleanup.go:433-448`):
when at least one worktree was removed, every distinct `RepoPath`
appearing among the stale candidates, once each; otherwise none. -/
def prunedRepos (allStale : List WorktreeInfo) (removed : Nat) : List String :=
  if removed > 0 then dedupFirst (allStale.map (fun wt => wt.repoPath)) []
  else []

/-- Full outcome of `runCleanupRun` after the results are in: the
tally, the pruned repositories, and the prune calls that failed
(each produces only a warning line). -/
structure RunSummary where
  tally : RunTally
  pruned : List String
  pruneWarnings : List String
  deriving Repr, DecidableEq

/-- The tail of `runCleanupRun` (`cmd/cleanup.go:388-448`): removal
loop, then metadata pruning once per touched repo path, collecting
prune failures as warnings. -/
def runSummary (env : RunEnv) (allStale : List WorktreeInfo) : RunSummary :=
  let tally := runRemovalLoop env allStale
  let pruned := prunedRepos allStale tally.removed
  let warnings := pruned.filter (fun p =>
    match env.pruneRes (joinPath p "main") with
    | .error _ => true
    | .ok _ => false)
  { tally := tally, pruned := pruned, pruneWarnings := warnings }

/-! ### Sample records and environments used by witnesses -/

/-- A worktree record with uncommitted changes (spec scenario B). -/
def sampleDirty : WorktreeInfo :=
  { repoName := "svc", repoPath := "/git/svc", path := "/git/svc/feat-y",
    branch := "feat-y", isMerged := false, isDeleted := false,
    hasChanges := true, reason := "Has uncommitted changes",
    lastModified := 0, sizeBytes := 10, defaultBranch := "main" }

/-- A clean, merged worktree record (spec scenario A). -/
def sampleMerged : WorktreeInfo :=
  { repoName := "svc", repoPath := "/git/svc", path := "/git/svc/feat-x",
    branch := "feat-x", isMerged := true, isDeleted := false,
    hasChanges := false, reason := "Merged to main",
    lastModified := 0, sizeBytes := 20, defaultBranch := "main" }

/-- A scan environment whose status query fails for every worktree. -/
def envStatusErr : ScanEnv :=
  { defaultBranchRes := .ok "main", fetchRes := .ok (),
    listRes := .ok [⟨"/git/svc/feat-x", "feat-x"⟩, ⟨"/git/svc/main", "main"⟩],
    statusRes := fun _ => .error (), mergedRes := fun _ _ => .ok true,
    remoteRes := fun _ _ => .ok false, modTime := fun _ => none,
    dirSize := fun _ => .error () }

/-! ### C1: the staleness classifier -/

/-- C1: for every `WorktreeInfo`, `IsStale` equals
`!hasChanges && (isMerged || isDeleted)`; in particular a clean record
is stale exactly when merged or remote-deleted, and a record with
uncommitted changes is never stale. -/
theorem isStale_classifier_spec (w : WorktreeInfo) :
    w.IsStale = (!w.hasChanges && (w.isMerged || w.isDeleted)) ∧
    (w.hasChanges = false → w.IsStale = (w.isMerged || w.isDeleted)) ∧
    (w.hasChanges = true → w.IsStale = false) := by
  refine ⟨rfl, ?_, ?_⟩ <;> intro h <;> simp [WorktreeInfo.IsStale, h]

/-- Witness for C1 at a concrete dirty record. -/
theorem isStale_classifier_spec_witness : sampleDirty.IsStale = false :=
  (isStale_classifier_spec sampleDirty).2.2 rfl

/-! ### C2: the removal executor re-checks cleanliness -/

/-- C2: if the pre-removal status re-check reports uncommitted changes,
`removeWorktreeSafely` returns the refusal error (distinct from the
generic removal failure), and the underlying remove command is not
invoked; moreover the remove command is only ever invoked when the
re-check reported a clean tree. -/
theorem removeWorktreeSafely_refuses_dirty (status : List String)
    (removeRes : Except Unit Unit) (h : status ≠ []) :
    removeWorktreeSafely (.ok status) removeRes =
      (.error .refusedUncommitted, false) ∧
    RemoveError.refusedUncommitted ≠ RemoveError.removeFailed ∧
    (∀ (sr : Except Unit (List String)) (rr : Except Unit Unit),
      (removeWorktreeSafely sr rr).2 = true → sr = .ok []) := by
  refine ⟨?_, by decide, ?_⟩
  · have hl : status.length > 0 := List.length_pos.mpr h
    simp [removeWorktreeSafely, hl]
  · intro sr rr hinv
    match sr with
    | .error _ => simp [removeWorktreeSafely] at hinv
    | .ok s =>
        by_cases hs : s.length > 0
        · simp [removeWorktreeSafely, hs] at hinv
        · have hnil : s = [] := List.length_eq_zero.mp (Nat.eq_zero_of_not_pos hs)
          rw [hnil]

/-- Witness for C2 at a concrete dirty status. -/
theorem removeWorktreeSafely_refuses_dirty_witness :
    removeWorktreeSafely (.ok ["M file.txt"]) (.ok ()) =
      (.error .refusedUncommitted, false) :=
  (removeWorktreeSafely_refuses_dirty ["M file.txt"] (.ok ()) (by simp)).1

/-! ### C3: status-check errors resolve fail-closed -/

/-- C3: when the porcelain-status query for a worktree errors, the
scanner's per-worktree step marks it as having uncommitted changes with
reason `"Error checking status"`, and the record is never classified
stale. -/
theorem statusError_failClosed (env : ScanEnv)
    (repoPath repoName defaultBranch : String) (wt : WorktreeListing)
    (h : env.statusRes wt.path = .error ()) :
    (processWorktree env repoPath repoName defaultBranch wt).hasChanges = true ∧
    (processWorktree env repoPath repoName defaultBranch wt).reason =
      "Error checking status" ∧
    (processWorktree env repoPath repoName defaultBranch wt).IsStale = false := by
  simp [processWorktree, h, WorktreeInfo.IsStale]

/-- Witness for C3 at a concrete environment whose status query fails. -/
theorem statusError_failClosed_witness :
    (processWorktree envStatusErr "/git/svc" "svc" "main"
      ⟨"/git/svc/feat-x", "feat-x"⟩).hasChanges = true ∧
    (processWorktree envStatusErr "/git/svc" "svc" "main"
      ⟨"/git/svc/feat-x", "feat-x"⟩).reason = "Error checking status" ∧
    (processWorktree envStatusErr "/git/svc" "svc" "main"
      ⟨"/git/svc/feat-x", "feat-x"⟩).IsStale = false :=
  statusError_failClosed envStatusErr "/git/svc" "svc" "main"
    ⟨"/git/svc/feat-x", "feat-x"⟩ rfl

/-! ### Structural lemmas about the per-worktree step -/

/-- The per-worktree step copies the enumerated worktree's path. -/
theorem processWorktree_path (env : ScanEnv)
    (repoPath repoName defaultBranch : String) (wt : WorktreeListing) :
    (processWorktree env repoPath repoName defaultBranch wt).path = wt.path := by
  rcases h : env.statusRes wt.path with _ | status
  · simp [processWorktree, h]
  · by_cases hs : status.length > 0
    · simp [processWorktree, h, hs]
    · rcases hm : env.mergedRes wt.branch defaultBranch with _ | b
      · rcases hr : env.remoteRes wt.path wt.branch with _ | c
        · simp [processWorktree, h, hs, hm, hr]
        · cases c <;> simp [processWorktree, h, hs, hm, hr]
      · cases b
        · rcases hr : env.remoteRes wt.path wt.branch with _ | c
          · simp [processWorktree, h, hs, hm, hr]
          · cases c <;> simp [processWorktree, h, hs, hm, hr]
        · simp [processWorktree, h, hs, hm]

/-- When the per-worktree step reports uncommitted changes, the merge
and remote flags are both unset. -/
theorem processWorktree_unclean (env : ScanEnv)
    (repoPath repoName defaultBranch : String) (wt : WorktreeListing)
    (h : (processWorktree env repoPath repoName defaultBranch wt).hasChanges = true) :
    (processWorktree env repoPath repoName defaultBranch wt).isMerged = false ∧
    (processWorktree env repoPath repoName defaultBranch wt).isDeleted = false := by
  rcases hst : env.statusRes wt.path with _ | status
  · simp [processWorktree, hst]
  · by_cases hs : status.length > 0
    · simp [processWorktree, hst, hs]
    · exfalso
      rcases hm : env.mergedRes wt.branch defaultBranch with _ | b
      · rcases hr : env.remoteRes wt.path wt.branch with _ | c
        · simp [processWorktree, hst, hs, hm, hr] at h
        · cases c <;> simp [processWorktree, hst, hs, hm, hr] at h
      · cases b
        · rcases hr : env.remoteRes wt.path wt.branch with _ | c
          · simp [processWorktree, hst, hs, hm, hr] at h
          · cases c <;> simp [processWorktree, hst, hs, hm, hr] at h
        · simp [processWorktree, hst, hs, hm] at h

/-- Every record the scanner returns comes from a non-`main` enumerated
worktree via the per-worktree step. -/
theorem mem_scanWorktrees (env : ScanEnv) (repoPath repoName : String)
    (res : List WorktreeInfo) (w : WorktreeInfo)
    (hres : scanWorktrees env repoPath repoName = .ok res) (hw : w ∈ res) :
    ∃ wt : WorktreeListing, baseName wt.path ≠ "main" ∧
      w = processWorktree env repoPath repoName
        (match env.defaultBranchRes with | .ok b => b | .error _ => "main") wt := by
  rcases hl : env.listRes with _ | wts
  · simp [scanWorktrees, hl] at hres
  · simp only [scanWorktrees, hl, Except.ok.injEq] at hres
    subst hres
    rcases List.mem_map.mp hw with ⟨wt, hwt, hEq⟩
    refine ⟨wt, ?_, hEq.symm⟩
    simpa using (List.mem_filter.mp hwt).2

/-- The record `scanWorktrees envStatusErr` produces for `feat-x`. -/
def recFeatXErr : WorktreeInfo :=
  { repoName := "svc", repoPath := "/git/svc", path := "/git/svc/feat-x",
    branch := "feat-x", isMerged := false, isDeleted := false,
    hasChanges := true, reason := "Error checking status",
    lastModified := 0, sizeBytes := 0, defaultBranch := "main" }

/-! ### C4: cleanliness short-circuits the probes -/

/-- C4: every record the scanner produces satisfies
`hasChanges = true → isMerged = false ∧ isDeleted = false`: the status
check runs first, and the merge/remote probes are skipped for unclean
worktrees. -/
theorem scan_unclean_never_probed (env : ScanEnv) (repoPath repoName : String)
    (res : List WorktreeInfo) (w : WorktreeInfo)
    (hres : scanWorktrees env repoPath repoName = .ok res) (hw : w ∈ res)
    (hch : w.hasChanges = true) :
    w.isMerged = false ∧ w.isDeleted = false := by
  obtain ⟨wt, -, hEq⟩ := mem_scanWorktrees env repoPath repoName res w hres hw
  subst hEq
  exact processWorktree_unclean _ _ _ _ _ hch

/-- Witness for C4 at a concrete scan whose status query fails. -/
theorem scan_unclean_never_probed_witness :
    recFeatXErr.isMerged = false ∧ recFeatXErr.isDeleted = false :=
  scan_unclean_never_probed envStatusErr "/git/svc" "svc" [recFeatXErr]
    recFeatXErr rfl (List.mem_singleton.mpr rfl) rfl

/-! ### C7: no record for the canonical `main` checkout -/

/-- C7: the scanner never produces a `WorktreeInfo` whose path has base
name `"main"`: the canonical checkout is filtered out before records
are built. -/
theorem scanner_excludes_main (env : ScanEnv) (repoPath repoName : String)
    (res : List WorktreeInfo) (w : WorktreeInfo)
    (hres : scanWorktrees env repoPath repoName = .ok res) (hw : w ∈ res) :
    baseName w.path ≠ "main" := by
  obtain ⟨wt, hmain, hEq⟩ := mem_scanWorktrees env repoPath repoName res w hres hw
  rw [hEq, processWorktree_path]
  exact hmain

/-- Witness for C7 at a concrete scan whose listing includes a `main`
entry: the produced record is for `feat-x` only. -/
theorem scanner_excludes_main_witness : baseName recFeatXErr.path ≠ "main" :=
  scanner_excludes_main envStatusErr "/git/svc" "svc" [recFeatXErr]
    recFeatXErr rfl (List.mem_singleton.mpr rfl)

/-! ### C10: probe errors are swallowed toward "active" -/

/-- A scan environment for a clean worktree whose merge and remote
probes both fail. -/
def envProbesErr : ScanEnv :=
  { defaultBranchRes := .ok "main", fetchRes := .ok (),
    listRes := .ok [⟨"/git/svc/feat-z", "feat-z"⟩],
    statusRes := fun _ => .ok [], mergedRes := fun _ _ => .error (),
    remoteRes := fun _ _ => .error (), modTime := fun _ => some 0,
    dirSize := fun _ => .ok 0 }

/-- C10: for a clean worktree, an error from the merged-branch probe
leaves `isMerged = false`, an error from the remote-existence probe
leaves `isDeleted = false`, and when both probes error the record
stays active: no reason string and not stale. -/
theorem probe_errors_swallowed (env : ScanEnv)
    (repoPath repoName defaultBranch : String) (wt : WorktreeListing)
    (hclean : env.statusRes wt.path = .ok []) :
    (processWorktree env repoPath repoName defaultBranch wt).hasChanges = false ∧
    (env.mergedRes wt.branch defaultBranch = .error () →
      (processWorktree env repoPath repoName defaultBranch wt).isMerged = false) ∧
    (env.remoteRes wt.path wt.branch = .error () →
      (processWorktree env repoPath repoName defaultBranch wt).isDeleted = false) ∧
    (env.mergedRes wt.branch defaultBranch = .error () →
      env.remoteRes wt.path wt.branch = .error () →
      (processWorktree env repoPath repoName defaultBranch wt).reason = "" ∧
      (processWorktree env repoPath repoName defaultBranch wt).IsStale = false) := by
  rcases hm : env.mergedRes wt.branch defaultBranch with _ | b
  · rcases hr : env.remoteRes wt.path wt.branch with _ | c
    · simp [processWorktree, hclean, hm, hr, WorktreeInfo.IsStale]
    · cases c <;> simp [processWorktree, hclean, hm, hr, WorktreeInfo.IsStale]
  · cases b
    · rcases hr : env.remoteRes wt.path wt.branch with _ | c
      · simp [processWorktree, hclean, hm, hr, WorktreeInfo.IsStale]
      · cases c <;> simp [processWorktree, hclean, hm, hr, WorktreeInfo.IsStale]
    · simp [processWorktree, hclean, hm, WorktreeInfo.IsStale]

/-- Witness for C10: with both probes failing, the concrete clean
worktree stays active with no reason string. -/
theorem probe_errors_swallowed_witness :
    (processWorktree envProbesErr "/git/svc" "svc" "main"
      ⟨"/git/svc/feat-z", "feat-z"⟩).reason = "" ∧
    (processWorktree envProbesErr "/git/svc" "svc" "main"
      ⟨"/git/svc/feat-z", "feat-z"⟩).IsStale = false :=
  (probe_errors_swallowed envProbesErr "/git/svc" "svc" "main"
    ⟨"/git/svc/feat-z", "feat-z"⟩ rfl).2.2.2 rfl rfl

/-! ### C5: scan and run share the classifier -/

/-- The stale records one channel result contributes: none for an
errored repository, otherwise the records passing `IsStale`. -/
def staleOf (r : RepoResult) : List WorktreeInfo :=
  match r.res with
  | .error _ => []
  | .ok wts => wts.filter (fun wt => wt.IsStale)

/-- The stale-collection fold, for any accumulator, appends the
per-result contributions in order. -/
theorem collectStale_foldl_eq (arrivals : List RepoResult)
    (acc : List WorktreeInfo) :
    (arrivals.foldl (fun acc r =>
      match r.res with
      | .error _ => acc
      | .ok wts => acc ++ wts.filter (fun wt => wt.IsStale)) acc) =
    acc ++ arrivals.flatMap staleOf := by
  induction arrivals generalizing acc with
  | nil => simp
  | cons r rest ih =>
      cases hr : r.res <;>
        simp [staleOf, hr, ih, List.flatMap_cons, List.append_assoc]

/-- Rewriting `scanCollectStale` as a flat map of per-result contributions. -/
theorem scanCollectStale_eq (arrivals : List RepoResult) :
    scanCollectStale arrivals = arrivals.flatMap staleOf :=
  (collectStale_foldl_eq arrivals []).trans (by simp)

/-- Membership in one result's stale contribution. -/
theorem mem_staleOf (r : RepoResult) (w : WorktreeInfo) :
    w ∈ staleOf r ↔
      ∃ wts, r.res = .ok wts ∧ w ∈ wts ∧ w.IsStale = true := by
  cases hr : r.res with
  | error e => simp [staleOf, hr]
  | ok wts => simp [staleOf, hr, List.mem_filter]

/-- C5: the run command's stale-collection loop computes exactly the
scan command's stale set (so run acts on a subset of what scan
reports), and membership in that set is precisely "a scanned record
that the classifier `IsStale` accepts". -/
theorem scan_run_share_classifier (arrivals : List RepoResult) :
    runCollectStale arrivals = scanCollectStale arrivals ∧
    (∀ w ∈ runCollectStale arrivals, w ∈ scanCollectStale arrivals) ∧
    (∀ w, w ∈ scanCollectStale arrivals ↔
      ∃ r ∈ arrivals, ∃ wts, r.res = .ok wts ∧ w ∈ wts ∧ w.IsStale = true) := by
  have heq : runCollectStale arrivals = scanCollectStale arrivals := rfl
  refine ⟨heq, fun w hw => heq ▸ hw, fun w => ?_⟩
  rw [scanCollectStale_eq]
  simp only [List.mem_flatMap, mem_staleOf]

/-- Witness for C5: a concrete merged record is collected by scan. -/
theorem scan_run_share_classifier_witness :
    sampleMerged ∈
      scanCollectStale [⟨"svc", .ok [sampleMerged, sampleDirty]⟩] :=
  ((scan_run_share_classifier
      [⟨"svc", .ok [sampleMerged, sampleDirty]⟩]).2.2 sampleMerged).mpr
    ⟨⟨"svc", .ok [sampleMerged, sampleDirty]⟩, by simp,
      [sampleMerged, sampleDirty], rfl, by simp, rfl⟩

/-! ### C6: repository discovery -/

/-- A concrete discovery environment: a configured root containing an
adopted container, a plain file, and a directory without the canonical
checkout. -/
def envDisc : DiscoverEnv :=
  { configuredRoot := "/git",
    homeDirRes := .ok "/home/u",
    readDirRes := fun p =>
      if p = "/git" then
        .ok [⟨"svc", true⟩, ⟨"notes.txt", false⟩, ⟨"empty", true⟩]
      else .error (),
    statExists := fun p => p == "/git/svc/main/.git" }

/-- C6: discovery aborts (returns `none`) when the root is unconfigured
or unreadable, and otherwise accepts exactly the directory entries for
which `root/<name>/main/.git` exists, silently skipping everything
else. -/
theorem discoverRepos_spec (env : DiscoverEnv) (gitFolder : String)
    (entries : List DirEntry) :
    (env.configuredRoot = "" → discoverRepos env = none) ∧
    (env.configuredRoot ≠ "" → expandHome env env.configuredRoot = .ok gitFolder →
      env.readDirRes gitFolder = .error () → discoverRepos env = none) ∧
    (env.configuredRoot ≠ "" → expandHome env env.configuredRoot = .ok gitFolder →
      env.readDirRes gitFolder = .ok entries →
      (discoverRepos env).isSome = true ∧
      (∀ p, p ∈ (discoverRepos env).getD [] ↔
        ∃ e ∈ entries, e.isDir = true ∧
          env.statExists
            (joinPath (joinPath (joinPath gitFolder e.name) "main") ".git") = true ∧
          p = joinPath gitFolder e.name)) := by
  refine ⟨fun h => by simp [discoverRepos, h],
    fun hne hexp hrd => by simp [discoverRepos, hne, hexp, hrd],
    fun hne hexp hrd => ?_⟩
  refine ⟨by simp [discoverRepos, hne, hexp, hrd], fun p => ?_⟩
  simp only [discoverRepos, hne, hexp, hrd, ite_false, Option.getD_some,
    List.mem_map, List.mem_filter, Bool.and_eq_true]
  constructor
  · rintro ⟨e, ⟨hmem, hdir, hstat⟩, hp⟩
    exact ⟨e, hmem, hdir, hstat, hp.symm⟩
  · rintro ⟨e, hmem, hdir, hstat, hp⟩
    exact ⟨e, ⟨hmem, hdir, hstat⟩, hp.symm⟩

/-- Witness for C6: the adopted container is discovered in the concrete
environment (and, per the theorem, the file and the checkout-less
directory are not). -/
theorem discoverRepos_spec_witness :
    "/git/svc" ∈ (discoverRepos envDisc).getD [] :=
  (((discoverRepos_spec envDisc "/git"
      [⟨"svc", true⟩, ⟨"notes.txt", false⟩, ⟨"empty", true⟩]).2.2
    (by decide) rfl rfl).2 "/git/svc").mpr
    ⟨⟨"svc", true⟩, by simp, rfl, by decide, rfl⟩

/-! ### C8: metadata pruning -/

/-- Membership in the `processedRepos` deduplication: the kept elements
are exactly those in the input that are not in the seen set. -/
theorem mem_dedupFirst (l : List String) (seen : List String) (p : String) :
    p ∈ dedupFirst l seen ↔ p ∈ l ∧ p ∉ seen := by
  induction l generalizing seen with
  | nil => simp [dedupFirst]
  | cons q rest ih =>
      by_cases hq : q ∈ seen
      · rw [show dedupFirst (q :: rest) seen = dedupFirst rest seen from by
          simp [dedupFirst, hq]]
        rw [ih]
        constructor
        · rintro ⟨hm, hns⟩
          exact ⟨List.mem_cons_of_mem _ hm, hns⟩
        · rintro ⟨hm, hns⟩
          rcases List.mem_cons.mp hm with h | h
          · exact absurd (h ▸ hq) hns
          · exact ⟨h, hns⟩
      · rw [show dedupFirst (q :: rest) seen = q :: dedupFirst rest (q :: seen) from by
          simp [dedupFirst, hq]]
        constructor
        · intro hm
          rcases List.mem_cons.mp hm with h | h
          · subst h
            exact ⟨List.mem_cons_self _ _, hq⟩
          · rcases (ih (q :: seen)).mp h with ⟨hr, hns⟩
            exact ⟨List.mem_cons_of_mem _ hr,
              fun hseen => hns (List.mem_cons_of_mem _ hseen)⟩
        · rintro ⟨hm, hns⟩
          by_cases hpq : p = q
          · subst hpq
            exact List.mem_cons_self _ _
          · rcases List.mem_cons.mp hm with h | h
            · exact absurd h hpq
            · refine List.mem_cons_of_mem _ ((ih (q :: seen)).mpr ⟨h, ?_⟩)
              intro hmem
              rcases List.mem_cons.mp hmem with h2 | h2
              · exact hpq h2
              · exact hns h2

/-- The `processedRepos` deduplication never keeps a path twice. -/
theorem nodup_dedupFirst (l : List String) (seen : List String) :
    (dedupFirst l seen).Nodup := by
  induction l generalizing seen with
  | nil => simp [dedupFirst]
  | cons q rest ih =>
      by_cases hq : q ∈ seen
      · rw [show dedupFirst (q :: rest) seen = dedupFirst rest seen from by
          simp [dedupFirst, hq]]
        exact ih seen
      · rw [show dedupFirst (q :: rest) seen = q :: dedupFirst rest (q :: seen) from by
          simp [dedupFirst, hq]]
        refine List.nodup_cons.mpr ⟨?_, ih (q :: seen)⟩
        intro hmem
        exact ((mem_dedupFirst rest (q :: seen) q).mp hmem).2 (List.mem_cons_self q seen)

/-- How many removals the run loop performs among the stale candidates
of one repository (its candidates are processed independently, so
filtering commutes with the loop). -/
def removedInRepo (env : RunEnv) (allStale : List WorktreeInfo) (repo : String) : Nat :=
  (runRemovalLoop env (allStale.filter (fun w => w.repoPath == repo))).removed

/-- A stale, merged candidate in repository `A`. -/
def staleA : WorktreeInfo :=
  { repoName := "A", repoPath := "/git/A", path := "/git/A/feat-a",
    branch := "feat-a", isMerged := true, isDeleted := false,
    hasChanges := false, reason := "Merged to main",
    lastModified := 0, sizeBytes := 5, defaultBranch := "main" }

/-- A stale, merged candidate in repository `B`. -/
def staleB : WorktreeInfo :=
  { repoName := "B", repoPath := "/git/B", path := "/git/B/feat-b",
    branch := "feat-b", isMerged := true, isDeleted := false,
    hasChanges := false, reason := "Merged to main",
    lastModified := 0, sizeBytes := 7, defaultBranch := "main" }

/-- A run environment where the user confirms only repository `A`'s
candidate; every git call succeeds. -/
def envRunCex : RunEnv :=
  { force := false,
    userAccepts := fun p => p == "/git/A/feat-a",
    recheckStatus := fun _ => .ok [],
    removeRes := fun _ => .ok (),
    pruneRes := fun _ => .ok () }

/-- Counterexample to C8 as stated: with candidates in repositories `A`
and `B` and only `A`'s removal confirmed, one worktree is removed,
nothing is removed in `B`, yet `B` is pruned — pruning is not limited
to repositories where something was removed. -/
theorem prune_untouched_repo_counterexample :
    (runSummary envRunCex [staleA, staleB]).tally.removed = 1 ∧
    removedInRepo envRunCex [staleA, staleB] "/git/B" = 0 ∧
    "/git/B" ∈ (runSummary envRunCex [staleA, staleB]).pruned := by
  refine ⟨rfl, rfl, ?_⟩
  rw [show (runSummary envRunCex [staleA, staleB]).pruned
      = ["/git/A", "/git/B"] from rfl]
  simp

/-- C8 amended: when at least one removal happened anywhere in the run,
pruning is performed exactly once per repository that had a stale
candidate (deduplicated by repo path, including repositories whose own
candidates were all skipped); when nothing was removed, no pruning
happens; and prune outcomes never affect the removal tally or the set
of pruned repositories. -/
theorem prune_once_per_stale_repo (env : RunEnv) (allStale : List WorktreeInfo) :
    (runSummary env allStale).pruned.Nodup ∧
    ((runSummary env allStale).tally.removed = 0 →
      (runSummary env allStale).pruned = []) ∧
    ((runSummary env allStale).tally.removed > 0 →
      ∀ p, p ∈ (runSummary env allStale).pruned ↔
        ∃ w ∈ allStale, w.repoPath = p) ∧
    (∀ env2 : RunEnv, env2.force = env.force →
      env2.userAccepts = env.userAccepts →
      env2.recheckStatus = env.recheckStatus →
      env2.removeRes = env.removeRes →
      (runSummary env2 allStale).tally = (runSummary env allStale).tally ∧
      (runSummary env2 allStale).pruned = (runSummary env allStale).pruned) := by
  refine ⟨?_, ?_, ?_, ?_⟩
  · show (prunedRepos allStale (runRemovalLoop env allStale).removed).Nodup
    unfold prunedRepos
    split
    · exact nodup_dedupFirst _ _
    · exact List.nodup_nil
  · intro h
    have h' : (runRemovalLoop env allStale).removed = 0 := h
    show prunedRepos allStale (runRemovalLoop env allStale).removed = []
    simp [prunedRepos, h']
  · intro h p
    have h' : 0 < (runRemovalLoop env allStale).removed := h
    show p ∈ prunedRepos allStale (runRemovalLoop env allStale).removed ↔ _
    rw [show prunedRepos allStale (runRemovalLoop env allStale).removed
        = dedupFirst (allStale.map (fun wt => wt.repoPath)) [] from by
      simp [prunedRepos, h']]
    rw [mem_dedupFirst]
    simp [List.mem_map]
  · intro env2 h1 h2 h3 h4
    have hloop : runRemovalLoop env2 allStale = runRemovalLoop env allStale := by
      simp [runRemovalLoop, h1, h2, h3, h4]
    exact ⟨by simp [runSummary, hloop], by simp [runSummary, hloop]⟩

/-- Witness for the amended C8: in the concrete run, repository `B` is
pruned even though only `A`'s candidate was removed. -/
theorem prune_once_per_stale_repo_witness :
    "/git/B" ∈ (runSummary envRunCex [staleA, staleB]).pruned :=
  (((prune_once_per_stale_repo envRunCex [staleA, staleB]).2.2.1
      (by exact Nat.zero_lt_one)) "/git/B").mpr ⟨staleB, by simp, rfl⟩

/-! ### C9: report ordering under concurrency -/

/-- The scan result of repository `alpha`. -/
def resAlpha : RepoResult := ⟨"alpha", .ok [staleA]⟩

/-- The scan result of repository `beta`. -/
def resBeta : RepoResult := ⟨"beta", .ok [staleB]⟩

/-- Counterexample to C9 as stated: with repositories discovered in
order `alpha, beta` but scan results arriving in order `beta, alpha`
(a permutation of the same per-repository results), the list command
prints the `beta` block first — the report follows completion order,
not discovery order. -/
theorem report_order_counterexample :
    (List.map RepoResult.repoName [resBeta, resAlpha]).Perm ["alpha", "beta"] ∧
    listReportRepoOrder [resBeta, resAlpha] = ["beta", "alpha"] ∧
    listReportRepoOrder [resBeta, resAlpha] ≠ ["alpha", "beta"] := by
  refine ⟨?_, rfl, by decide⟩
  exact List.Perm.swap "alpha" "beta" []

/-- C9 amended: the report is grouped by repository in result-arrival
(completion) order — the printed repository headers are a subsequence
of the arrival order — and the collection of stale records that scan
buffers is arrival-order-independent up to permutation. -/
theorem report_follows_arrival (arrivals arrivals2 : List RepoResult) :
    (listReportRepoOrder arrivals).Sublist (arrivals.map RepoResult.repoName) ∧
    (arrivals.Perm arrivals2 →
      (scanCollectStale arrivals).Perm (scanCollectStale arrivals2)) := by
  constructor
  · exact (List.filter_sublist _).map _
  · intro h
    rw [scanCollectStale_eq, scanCollectStale_eq]
    exact h.flatMap_right staleOf

/-- Witness for the amended C9 at a concrete pair of arrival orders. -/
theorem report_follows_arrival_witness :
    (scanCollectStale [resBeta, resAlpha]).Perm
      (scanCollectStale [resAlpha, resBeta]) :=
  (report_follows_arrival [resBeta, resAlpha] [resAlpha, resBeta]).2
    (List.Perm.swap resAlpha resBeta [])

end AiWorkflow
